import Mathlib

/-!
Verification of the plant-monitoring IoT repository: the fuzzy-logic servo
decision function and actuator smoothing (ESP32 sketches), and the Express
server's in-memory sensor store: `normalizeLimit`, `normalizeDate`,
`getSensorRange`, the range/CSV/latest endpoints, and the ingestion paths
(MQTT message handler and the direct POST endpoint).

Sensor values (pH, soil moisture percentages) are modelled as rationals;
timestamps (JS `Date.getTime()` milliseconds) as integers; servo positions
as integers.
-/

namespace PhTemp

/-! ### Control policy: `controlServoWithFuzzyLogic` (ESP32 sketch) -/

/-- The value computed into `newServoPos` by `controlServoWithFuzzyLogic`:
initialised to 0 (default closed), then the if/else-if rule chain:
rule 1 `ph < 4.4 || soil < 30` gives 180; rule 2 `ph > 5.5 || soil > 70`
gives 0; rule 3 guarded by `ph >= 4.4 && ph <= 5.5` gives 90 / 45 / 0 by
soil thresholds 40 and 50; otherwise the initial 0 stands. -/
def newServoPos (phValue soilMoisture : ℚ) : ℤ :=
  if phValue < 4.4 ∨ soilMoisture < 30 then 180
  else if phValue > 5.5 ∨ soilMoisture > 70 then 0
  else if 4.4 ≤ phValue ∧ phValue ≤ 5.5 then
    (if soilMoisture < 40 then 90
     else if soilMoisture < 50 then 45
     else 0)
  else 0

/-- The decision table as the spec words it: first matching rule wins, and
rule 3 carries no guard of its own (its range holds by elimination). -/
def decideSpec (ph soilMoisture : ℚ) : ℤ :=
  if ph < 4.4 ∨ soilMoisture < 30 then 180
  else if ph > 5.5 ∨ soilMoisture > 70 then 0
  else if soilMoisture < 40 then 90
  else if soilMoisture < 50 then 45
  else 0

/-- The smoothing/deadband step at the end of `controlServoWithFuzzyLogic`:
commit (move the servo, report the move) only when the new target differs
from the current position by more than 10 degrees. The Bool records whether
the servo was commanded (and, in the MQTT sketch, the position-change event
published). -/
def servoSmooth (newPos servoPosition : ℤ) : ℤ × Bool :=
  if |newPos - servoPosition| > 10 then (newPos, true) else (servoPosition, false)

/-- One actuator evaluation tick: compute the fuzzy target, then apply the
smoothing step to the current servo position. -/
def controlServoWithFuzzyLogic (phValue soilMoisture : ℚ) (servoPosition : ℤ) :
    ℤ × Bool :=
  servoSmooth (newServoPos phValue soilMoisture) servoPosition

/-- Claim C1: the decision function evaluates the rules first-match-first in
the spec's order (rule 3 needs no guard: its range holds by elimination),
and the result is always one of 0, 45, 90, 180. -/
theorem newServoPos_eq_decideSpec_and_range (ph soil : ℚ) :
    newServoPos ph soil = decideSpec ph soil ∧
      (newServoPos ph soil = 0 ∨ newServoPos ph soil = 45 ∨
        newServoPos ph soil = 90 ∨ newServoPos ph soil = 180) := by
  constructor
  · unfold newServoPos decideSpec
    split_ifs with h1 h2 h3 <;> try rfl
    all_goals (push_neg at h1 h2 h3; exact absurd (h3 h1.1) (not_lt.mpr h2.1))
  · unfold newServoPos
    split_ifs <;> simp

/-- Claim C2 counterexample: at pH exactly 4.4 and soil 50 the code reaches
rule 3's final else and returns 0, not the 45 the claim states. -/
theorem newServoPos_at_boundary_counterexample :
    newServoPos 4.4 50 = 0 ∧ newServoPos 4.4 50 ≠ 45 := by
  constructor
  · norm_num [newServoPos]
  · norm_num [newServoPos]

/-- Claim C2 amended: pH exactly 4.4 does not fire rule 1 (it is not "too
low"), but soil 50 lands in rule 3's final else, so the result is 0; at
pH 4.39 rule 1 fires and gives 180. -/
theorem newServoPos_at_boundary :
    newServoPos 4.4 50 = 0 ∧ newServoPos 4.39 50 = 180 := by
  constructor
  · norm_num [newServoPos]
  · norm_num [newServoPos]

/-- Claim C3: a tick commits exactly when the fuzzy target is more than 10
degrees from the current position — committing sets the position to the
target and commands/reports the servo, otherwise the position stands and
nothing is commanded; the deadband instances at current position 0 behave
as stated (target 5 is a no-op, target 45 actuates). -/
theorem controlServo_tick_hysteresis :
    (∀ (ph soil : ℚ) (pos : ℤ),
        (|newServoPos ph soil - pos| > 10 →
          controlServoWithFuzzyLogic ph soil pos = (newServoPos ph soil, true)) ∧
        (|newServoPos ph soil - pos| ≤ 10 →
          controlServoWithFuzzyLogic ph soil pos = (pos, false))) ∧
      servoSmooth 5 0 = (0, false) ∧ servoSmooth 45 0 = (45, true) := by
  refine ⟨fun ph soil pos => ⟨fun h => ?_, fun h => ?_⟩, by decide, by decide⟩
  · simp [controlServoWithFuzzyLogic, servoSmooth, h]
  · simp [controlServoWithFuzzyLogic, servoSmooth, not_lt.mpr h]

/-- Claim C3 witness: a concrete tick at pH 5, soil 45 from position 0
computes target 45 and actuates. -/
theorem controlServo_tick_hysteresis_witness :
    controlServoWithFuzzyLogic 5 45 0 = (45, true) := by
  have h := (controlServo_tick_hysteresis.1 5 45 0).1
  have ht : newServoPos 5 45 = 45 := by norm_num [newServoPos]
  rw [ht] at h
  exact h (by norm_num)

/-! ### The server's in-memory store and range query (`main.js`) -/

/-- A stored sensor record. Field names follow the JSON the device sends
and the CSV header (`ph, soil, temperature, humidity, servo_position,
topic, receivedAt`); `receivedAt` is the JS `Date` as milliseconds, and
`topic` is absent on records that arrived without one (the seed data and
direct POSTs). -/
structure Reading where
  ph : ℚ
  soil : ℚ
  temperature : ℚ
  humidity : ℚ
  servo_position : ℤ
  topic : Option String
  receivedAt : ℤ
deriving DecidableEq

/-- The limit normalizer `normalizeLimit(rawLimit, fallback = 500)`: the `parseInt` outcome is
modelled as `Option ℤ` (`none` = absent or unparseable, i.e. `NaN`);
non-positive parses also fall back; otherwise the parse is capped at
5000 (`Math.min(parsed, 5000)`). -/
def normalizeLimit (rawLimit : Option ℤ) (fallback : ℕ) : ℕ :=
  match rawLimit with
  | none => fallback
  | some parsed => if parsed ≤ 0 then fallback else min parsed.toNat 5000

/-- The filter predicate `getSensorRange` builds when `start` or `end` is
given: `receivedAt >= start` (if start) and `receivedAt <= end` (if end),
both inclusive. -/
def inRangeB (start stop : Option ℤ) (reading : Reading) : Bool :=
  (match start with
   | none => true
   | some s => decide (s ≤ reading.receivedAt)) &&
  (match stop with
   | none => true
   | some e => decide (reading.receivedAt ≤ e))

/-- The in-memory (`useDummyData`) branch of `getSensorRange`: copy the
store, filter only when a bound was given, sort the copy by `receivedAt`
(ascending when `sortDirection === 1`, else descending; JS `Array.sort`
is stable, modelled by stable insertion sort), then `slice(0, limit)`. -/
def getSensorRange (store : List Reading) (start stop : Option ℤ)
    (limit : ℕ) (sortDirection : ℤ) : List Reading :=
  let readings := store
  let filtered :=
    if start.isSome || stop.isSome then readings.filter (inRangeB start stop)
    else readings
  let sorted :=
    if sortDirection = 1 then
      filtered.insertionSort (fun a b => a.receivedAt ≤ b.receivedAt)
    else
      filtered.insertionSort (fun a b => b.receivedAt ≤ a.receivedAt)
  sorted.take limit

/-- Every record a query returns came from the filtered store. -/
theorem mem_getSensorRange {store : List Reading} {start stop : Option ℤ}
    {limit : ℕ} {dir : ℤ} {r : Reading}
    (h : r ∈ getSensorRange store start stop limit dir) :
    r ∈ store ∧ (start.isSome || stop.isSome → inRangeB start stop r = true) := by
  simp only [getSensorRange] at h
  have hs := List.take_subset _ _ h
  by_cases hb : (start.isSome || stop.isSome : Bool) = true
  · rw [if_pos hb] at hs
    have hm : r ∈ store.filter (inRangeB start stop) := by
      split_ifs at hs <;> exact (List.mem_insertionSort _).mp hs
    have hf := List.mem_filter.mp hm
    exact ⟨hf.1, fun _ => hf.2⟩
  · rw [if_neg hb] at hs
    have hm : r ∈ store := by
      split_ifs at hs <;> exact (List.mem_insertionSort _).mp hs
    exact ⟨hm, fun hc => absurd hc hb⟩

/-- When the caller's fallback is at most 5000 (the code uses 200, 500 and
1000), the normalized limit is at most 5000. -/
theorem normalizeLimit_le {raw : Option ℤ} {fb : ℕ} (hfb : fb ≤ 5000) :
    normalizeLimit raw fb ≤ 5000 := by
  cases raw with
  | none => simpa [normalizeLimit] using hfb
  | some p =>
    simp only [normalizeLimit]
    split_ifs
    · exact hfb
    · exact min_le_right _ _

/-- Claim C4: with a limit produced by `normalizeLimit` (fallback at most
5000, as at every call site), every returned record respects the given
inclusive bounds and the result holds at most `min limit 5000` records. -/
theorem getSensorRange_bounds_and_length (store : List Reading)
    (start stop : Option ℤ) (raw : Option ℤ) (fb : ℕ) (dir : ℤ)
    (hfb : fb ≤ 5000) :
    (∀ r ∈ getSensorRange store start stop (normalizeLimit raw fb) dir,
        (∀ s, start = some s → s ≤ r.receivedAt) ∧
        (∀ e, stop = some e → r.receivedAt ≤ e)) ∧
      (getSensorRange store start stop (normalizeLimit raw fb) dir).length ≤
        min (normalizeLimit raw fb) 5000 := by
  constructor
  · intro r hr
    have h := mem_getSensorRange hr
    constructor
    · intro s hsome
      have hb : (start.isSome || stop.isSome : Bool) = true := by
        simp [hsome]
      have := h.2 hb
      rw [hsome] at this
      unfold inRangeB at this
      simp only [Bool.and_eq_true, decide_eq_true_eq] at this
      exact this.1
    · intro e hsome
      have hb : (start.isSome || stop.isSome : Bool) = true := by
        simp [hsome]
      have := h.2 hb
      rw [hsome] at this
      unfold inRangeB at this
      simp only [Bool.and_eq_true, decide_eq_true_eq] at this
      exact this.2
  · refine le_min ?_ ?_
    · unfold getSensorRange
      simp
    · calc (getSensorRange store start stop (normalizeLimit raw fb) dir).length
          ≤ normalizeLimit raw fb := by
            unfold getSensorRange; simp
        _ ≤ 5000 := normalizeLimit_le hfb

/-- Claim C4 witness: a one-record store, a satisfied lower bound, limit
from an absent raw limit with fallback 200. -/
theorem getSensorRange_bounds_and_length_witness :
    (∀ r ∈ getSensorRange [⟨5, 50, 25, 60, 0, none, 10⟩] (some 3) none
        (normalizeLimit none 200) (-1),
        (∀ s, (some 3 : Option ℤ) = some s → s ≤ r.receivedAt) ∧
        (∀ e, (none : Option ℤ) = some e → r.receivedAt ≤ e)) ∧
      (getSensorRange [⟨5, 50, 25, 60, 0, none, 10⟩] (some 3) none
        (normalizeLimit none 200) (-1)).length ≤
        min (normalizeLimit none 200) 5000 :=
  getSensorRange_bounds_and_length [⟨5, 50, 25, 60, 0, none, 10⟩]
    (some 3) none none 200 (-1) (by norm_num)

/-- Claim C5: three stored readings with strictly increasing timestamps;
the descending query with limit 2 sorts first and truncates after, giving
the two newest, newest first. -/
theorem getSensorRange_desc_limit2 (r1 r2 r3 : Reading)
    (h12 : r1.receivedAt < r2.receivedAt) (h23 : r2.receivedAt < r3.receivedAt) :
    getSensorRange [r1, r2, r3] none none 2 (-1) = [r3, r2] := by
  have n12 : ¬(r2.receivedAt ≤ r1.receivedAt) := not_le.mpr h12
  have n13 : ¬(r3.receivedAt ≤ r1.receivedAt) := not_le.mpr (h12.trans h23)
  have n23 : ¬(r3.receivedAt ≤ r2.receivedAt) := not_le.mpr h23
  simp [getSensorRange, List.insertionSort, List.orderedInsert, n12, n13, n23]

/-- Claim C5 witness: concrete readings at times 1 < 2 < 3. -/
theorem getSensorRange_desc_limit2_witness :
    getSensorRange [⟨5, 50, 25, 60, 0, none, 1⟩, ⟨5, 50, 25, 60, 0, none, 2⟩,
        ⟨5, 50, 25, 60, 0, none, 3⟩] none none 2 (-1) =
      [⟨5, 50, 25, 60, 0, none, 3⟩, ⟨5, 50, 25, 60, 0, none, 2⟩] :=
  getSensorRange_desc_limit2 _ _ _ (by norm_num) (by norm_num)

/-- Claim C6 counterexample: with an absent raw limit and fallback 6000,
`normalizeLimit` returns 6000, an effective limit above 5000 — the claim's
"never larger than 5000 for every fallback value" fails. -/
theorem normalizeLimit_fallback_counterexample :
    normalizeLimit none 6000 = 6000 ∧ 5000 < normalizeLimit none 6000 := by
  constructor <;> norm_num [normalizeLimit]

/-- Claim C6 amended: the fallback is returned exactly when the raw limit
is absent/unparseable or non-positive, otherwise `min(parsed, 5000)`; the
result never exceeds `max fallback 5000`, so it never exceeds 5000
whenever the fallback does not (all call sites use 200, 500 or 1000). -/
theorem normalizeLimit_spec (raw : Option ℤ) (fb : ℕ) :
    (raw = none → normalizeLimit raw fb = fb) ∧
      (∀ p : ℤ, raw = some p → p ≤ 0 → normalizeLimit raw fb = fb) ∧
      (∀ p : ℤ, raw = some p → 0 < p →
        normalizeLimit raw fb = min p.toNat 5000) ∧
      normalizeLimit raw fb ≤ max fb 5000 := by
  refine ⟨fun h => by simp [normalizeLimit, h], fun p hp hle => ?_,
    fun p hp hpos => ?_, ?_⟩
  · simp [normalizeLimit, hp, hle]
  · simp [normalizeLimit, hp, not_le.mpr hpos, hpos]
  · cases raw with
    | none => simp [normalizeLimit]
    | some p =>
      simp only [normalizeLimit]
      split_ifs
      · exact le_max_left _ _
      · exact le_trans (min_le_right _ _) (le_max_right _ _)

/-- Claim C6 amended witness: raw limit 7000 parses positive and is capped
at 5000. -/
theorem normalizeLimit_spec_witness :
    normalizeLimit (some 7000) 500 = min (Int.toNat 7000) 5000 :=
  (normalizeLimit_spec (some 7000) 500).2.2.1 7000 rfl (by norm_num)

/-! ### The range and CSV endpoints: date validation (`main.js`) -/

/-- The date normalizer `normalizeDate(value)`: a missing or falsy value (JS `undefined`,
`null`, or the empty string) gives `null` before any parsing; otherwise
`new Date(value)` either parses to a timestamp or is invalid (`null`).
`dateParse` abstracts JS date parsing of non-empty strings. -/
def normalizeDate (dateParse : String → Option ℤ) (value : Option String) :
    Option ℤ :=
  match value with
  | none => none
  | some s => if s = "" then none else dateParse s

/-- JS truthiness of an optional query-string parameter: present and
non-empty. -/
def truthy : Option String → Bool
  | none => false
  | some s => s ≠ ""

/-- Outcome of a range-shaped endpoint: a 400 client error, or a 200 with
the queried records (and, for the JSON endpoint, their count). -/
inductive RangeResult where
  | badRequest (msg : String)
  | ok (data : List Reading) (count : ℕ)
deriving DecidableEq

/-- The endpoint `GET /api/sensors/range`: normalize both dates and the limit
(fallback 200), reject with 400 when a truthy parameter failed to parse,
otherwise run the query descending. -/
def rangeEndpoint (dateParse : String → Option ℤ) (store : List Reading)
    (rawStart rawEnd : Option String) (rawLimit : Option ℤ) : RangeResult :=
  let start := normalizeDate dateParse rawStart
  let stop := normalizeDate dateParse rawEnd
  let limit := normalizeLimit rawLimit 200
  if truthy rawStart && start.isNone then RangeResult.badRequest "Invalid start date"
  else if truthy rawEnd && stop.isNone then RangeResult.badRequest "Invalid end date"
  else
    let data := getSensorRange store start stop limit (-1)
    RangeResult.ok data data.length

/-- The endpoint `GET /api/sensors/csv`: same validation with fallback limit 1000 and
an ascending query (the records the CSV rows are rendered from). -/
def csvEndpoint (dateParse : String → Option ℤ) (store : List Reading)
    (rawStart rawEnd : Option String) (rawLimit : Option ℤ) : RangeResult :=
  let start := normalizeDate dateParse rawStart
  let stop := normalizeDate dateParse rawEnd
  let limit := normalizeLimit rawLimit 1000
  if truthy rawStart && start.isNone then RangeResult.badRequest "Invalid start date"
  else if truthy rawEnd && stop.isNone then RangeResult.badRequest "Invalid end date"
  else
    let data := getSensorRange store start stop limit 1
    RangeResult.ok data data.length

/-- A concrete stand-in for JS date parsing: one fixed parseable string,
everything else (the empty string included, as `new Date(<empty>)` is an
invalid date) unparseable. -/
def sampleDateParse (s : String) : Option ℤ :=
  if s = "2024-01-01" then some 1704067200000 else none

/-- Claim C7 counterexample: a present `start` parameter holding the empty
string is unparseable as a date, yet neither endpoint rejects it: JS
truthiness skips the 400 check for the empty string, and the query runs
with the default bounds. -/
theorem rangeEndpoint_empty_string_counterexample :
    (some "" : Option String).isSome = true ∧
      normalizeDate sampleDateParse (some "") = none ∧
      sampleDateParse "" = none ∧
      rangeEndpoint sampleDateParse [] (some "") none none =
        RangeResult.ok [] 0 ∧
      csvEndpoint sampleDateParse [] (some "") none none =
        RangeResult.ok [] 0 := by
  refine ⟨rfl, rfl, rfl, ?_, ?_⟩ <;> rfl

/-- A 400 check `param && normalized.isNone` is false whenever its
conjunctive reading fails. -/
theorem invalidCheck_false {b : Bool} {o : Option ℤ}
    (h : ¬(b = true ∧ o = none)) : (b && o.isNone) = false := by
  cases b with
  | false => rfl
  | true =>
    have hn : ¬o = none := fun hno => h ⟨rfl, hno⟩
    simp only [Bool.true_and, Bool.eq_false_iff]
    intro hcontra
    exact hn (Option.isNone_iff_eq_none.mp hcontra)

/-- Claim C7 amended: a start/end parameter that is present and *truthy*
(non-empty) but unparseable is rejected with a 400 before any query runs
(start checked first); when no such parameter exists, both endpoints run
their query with the normalized defaults and return its records. -/
theorem rangeEndpoints_date_validation (dp : String → Option ℤ)
    (store : List Reading) (rs re : Option String) (rl : Option ℤ) :
    (truthy rs = true ∧ normalizeDate dp rs = none →
      rangeEndpoint dp store rs re rl = RangeResult.badRequest "Invalid start date" ∧
      csvEndpoint dp store rs re rl = RangeResult.badRequest "Invalid start date") ∧
    (¬(truthy rs = true ∧ normalizeDate dp rs = none) →
      truthy re = true ∧ normalizeDate dp re = none →
      rangeEndpoint dp store rs re rl = RangeResult.badRequest "Invalid end date" ∧
      csvEndpoint dp store rs re rl = RangeResult.badRequest "Invalid end date") ∧
    (¬(truthy rs = true ∧ normalizeDate dp rs = none) →
      ¬(truthy re = true ∧ normalizeDate dp re = none) →
      rangeEndpoint dp store rs re rl =
        RangeResult.ok
          (getSensorRange store (normalizeDate dp rs) (normalizeDate dp re)
            (normalizeLimit rl 200) (-1))
          (getSensorRange store (normalizeDate dp rs) (normalizeDate dp re)
            (normalizeLimit rl 200) (-1)).length ∧
      csvEndpoint dp store rs re rl =
        RangeResult.ok
          (getSensorRange store (normalizeDate dp rs) (normalizeDate dp re)
            (normalizeLimit rl 1000) 1)
          (getSensorRange store (normalizeDate dp rs) (normalizeDate dp re)
            (normalizeLimit rl 1000) 1).length) := by
  refine ⟨fun h => ?_, fun hns h => ?_, fun hns hne => ?_⟩
  · have hc : (truthy rs && (normalizeDate dp rs).isNone) = true := by
      simp [h.1, h.2]
    constructor <;> simp [rangeEndpoint, csvEndpoint, hc]
  · have hc := invalidCheck_false hns
    have hc2 : (truthy re && (normalizeDate dp re).isNone) = true := by
      simp [h.1, h.2]
    constructor <;> simp [rangeEndpoint, csvEndpoint, hc, hc2]
  · have hc := invalidCheck_false hns
    have hc2 := invalidCheck_false hne
    constructor <;> simp [rangeEndpoint, csvEndpoint, hc, hc2]

/-- Claim C7 amended witness: a non-empty unparseable start parameter is
rejected by the JSON range endpoint. -/
theorem rangeEndpoints_date_validation_witness :
    rangeEndpoint sampleDateParse [] (some "notadate") none none =
      RangeResult.badRequest "Invalid start date" :=
  ((rangeEndpoints_date_validation sampleDateParse [] (some "notadate")
      none none).1 ⟨by decide, rfl⟩).1

/-! ### The latest-reading endpoint and the seed data (`main.js`) -/

/-- The records `seedDummyData` installs: the reading stamped `now` first,
the reading stamped one minute earlier second. -/
def seedDummyData (now : ℤ) : List Reading :=
  [⟨5.0, 55, 26.4, 62.3, 90, none, now⟩,
   ⟨4.7, 35, 27.1, 58.2, 120, none, now - 60000⟩]

/-- The in-memory branch of `GET /api/sensors/latest`:
`inMemorySensors[inMemorySensors.length - 1]`, i.e. the last-appended
record; `none` (rendered as the empty record `{}`) when the store is
empty. -/
def latestSensor (store : List Reading) : Option Reading :=
  store.getLast?

/-- Claim C8: on the repository's own seed data the latest endpoint
returns the last-appended record, whose `receivedAt` is one minute older
than the store's maximum — not the reading with the greatest `receivedAt`
as claimed. The empty-store case does return the empty record. -/
theorem latestSensor_seed_divergence :
    latestSensor (seedDummyData 0) =
        some ⟨4.7, 35, 27.1, 58.2, 120, none, -60000⟩ ∧
      (⟨5.0, 55, 26.4, 62.3, 90, none, (0 : ℤ)⟩ : Reading) ∈ seedDummyData 0 ∧
      (-60000 : ℤ) < 0 ∧
      latestSensor ([] : List Reading) = none := by
  refine ⟨?_, ?_, by norm_num, rfl⟩
  · simp [latestSensor, seedDummyData]
  · simp [seedDummyData]

/-! ### Ingestion stamps `receivedAt` server-side (`main.js`) -/

/-- An inbound JSON payload as the device sends it (or as a client POSTs
it): sensor fields plus, possibly, a sender-supplied `receivedAt` the
server must not trust. -/
structure InboundPayload where
  ph : ℚ
  soil : ℚ
  temperature : ℚ
  humidity : ℚ
  servo_position : ℤ
  receivedAt : Option ℤ
deriving DecidableEq

/-- The stamping both ingestion paths perform before appending:
`sensorData.receivedAt = new Date()` overwrites whatever the sender put
there, and the MQTT handler additionally records the topic. -/
def stampReading (payload : InboundPayload) (now : ℤ) (topic : Option String) :
    Reading :=
  ⟨payload.ph, payload.soil, payload.temperature, payload.humidity,
    payload.servo_position, topic, now⟩

/-- The MQTT `message` handler in dummy mode: stamp, attach the topic,
push onto `inMemorySensors`. -/
def handleMessage (store : List Reading) (topic : String)
    (payload : InboundPayload) (now : ℤ) : List Reading :=
  store ++ [stampReading payload now (some topic)]

/-- The endpoint `POST /api/sensors` in dummy mode: stamp and push (no topic). -/
def postSensors (store : List Reading) (payload : InboundPayload) (now : ℤ) :
    List Reading :=
  store ++ [stampReading payload now none]

/-- Claim C9: on both ingestion paths the stored record carries the
server's `now` as `receivedAt`, and the resulting store does not depend on
any sender-supplied `receivedAt`: payloads differing only in that field
ingest identically. -/
theorem receivedAt_server_assigned (store : List Reading) (topic : String)
    (p q : InboundPayload) (now : ℤ)
    (hsame : p.ph = q.ph ∧ p.soil = q.soil ∧ p.temperature = q.temperature ∧
      p.humidity = q.humidity ∧ p.servo_position = q.servo_position) :
    handleMessage store topic p now = handleMessage store topic q now ∧
      postSensors store p now = postSensors store q now ∧
      (∀ r ∈ handleMessage store topic p now, r ∈ store ∨ r.receivedAt = now) ∧
      (∀ r ∈ postSensors store p now, r ∈ store ∨ r.receivedAt = now) := by
  obtain ⟨h1, h2, h3, h4, h5⟩ := hsame
  refine ⟨?_, ?_, ?_, ?_⟩
  · simp [handleMessage, stampReading, h1, h2, h3, h4, h5]
  · simp [postSensors, stampReading, h1, h2, h3, h4, h5]
  · intro r hr
    rcases List.mem_append.mp hr with hm | hm
    · exact Or.inl hm
    · right
      simp only [List.mem_singleton] at hm
      rw [hm]
      rfl
  · intro r hr
    rcases List.mem_append.mp hr with hm | hm
    · exact Or.inl hm
    · right
      simp only [List.mem_singleton] at hm
      rw [hm]
      rfl

/-- Claim C9 witness: a payload claiming `receivedAt = 999` and one
claiming nothing ingest identically, and the appended record carries the
server time 5. -/
theorem receivedAt_server_assigned_witness :
    handleMessage [] "plant_monitoring/sensors/unifi"
        ⟨5, 50, 25, 60, 0, some 999⟩ 5 =
      handleMessage [] "plant_monitoring/sensors/unifi"
        ⟨5, 50, 25, 60, 0, none⟩ 5 ∧
      (∀ r ∈ postSensors [] (⟨5, 50, 25, 60, 0, some 999⟩ : InboundPayload) 5,
        r ∈ ([] : List Reading) ∨ r.receivedAt = 5) := by
  have h := receivedAt_server_assigned [] "plant_monitoring/sensors/unifi"
    ⟨5, 50, 25, 60, 0, some 999⟩ ⟨5, 50, 25, 60, 0, none⟩ 5
    ⟨rfl, rfl, rfl, rfl, rfl⟩
  exact ⟨h.1, h.2.2.2⟩

/-! ### Queries do not mutate the store (`main.js`) -/

/-- The server's mutable state relevant to queries: the `inMemorySensors`
array. -/
structure ServerState where
  inMemorySensors : List Reading
deriving DecidableEq

/-- The query `getSensorRange` as a state transformer. The function reads the store
once, into the spread copy `[...inMemorySensors]`; `filter` and `slice`
allocate fresh arrays and the in-place `sort` mutates only the copy, so
the state component passes through unwritten. -/
def getSensorRangeSt (st : ServerState) (start stop : Option ℤ)
    (limit : ℕ) (sortDirection : ℤ) : ServerState × List Reading :=
  let readings := st.inMemorySensors
  (st, getSensorRange readings start stop limit sortDirection)

/-- Claim C10: running a range query leaves the stored readings (and their
order) exactly as they were, and its answer is the pure query over the
store's contents. -/
theorem getSensorRangeSt_frame (st : ServerState) (start stop : Option ℤ)
    (limit : ℕ) (dir : ℤ) :
    (getSensorRangeSt st start stop limit dir).1 = st ∧
      (getSensorRangeSt st start stop limit dir).2 =
        getSensorRange st.inMemorySensors start stop limit dir :=
  ⟨rfl, rfl⟩

end PhTemp
